import Mathlib

/-!
Verification development for the PTT forum crawler (source files
`ptt_crawler.py` and `ppt.py`).  The HTML documents handled by the crawler
are embedded as a tree of element and text nodes; the BeautifulSoup
operations the crawler uses (`find_all`, `find`, `select`, `get_text`,
`extract`, `.strings`, `.stripped_strings`) are defined over this tree.
Python string primitives (`strip`, `split`, `replace`, `lower`, `in`,
`startswith`) and the two regular expressions used by the source (the
dotted-quad IP pattern and the previous-page link pattern) are modelled over
`List Char`; the character classes cover the ASCII fragment of Python's
Unicode classes, which is the fragment all crawler inputs exercise.
Network fetches are supplied as oracles mapping a URL or page number to an
optional fetched document, `none` standing for an exhausted-retries fetch
failure; time-dependent fields (crawl timestamps) and actual I/O are outside
the embedding.
-/

mutual
/-- An HTML node: a text node or an element with a tag, attributes and
children.  (Mutual with `HNodes`, the list of children, so that all
operations can be defined by structural recursion.) -/
inductive HNode where
  | text (s : String)
  | elem (tag : String) (attrs : List (String × String)) (children : HNodes)
deriving Repr, DecidableEq
inductive HNodes where
  | nil
  | cons (head : HNode) (tail : HNodes)
deriving Repr, DecidableEq
end

/-- Build a children list from a `List HNode`. -/
def HNodes.ofList : List HNode → HNodes
  | [] => .nil
  | n :: ns => .cons n (HNodes.ofList ns)

/-- First value for an attribute key, like bs4 `tag.get(key)`. -/
def HNode.getAttr (n : HNode) (key : String) : Option String :=
  match n with
  | .text _ => none
  | .elem _ attrs _ => (attrs.lookup key)

/-- The whitespace characters recognised by Python `str.strip()` /
`\s` (ASCII fragment). -/
def isPySpace (c : Char) : Bool :=
  c = ' ' || c = '\t' || c = '\n' || c = '\r' || c = '\x0b' || c = '\x0c'

/-- Python `str.strip()` on a character list. -/
def pyStripChars (l : List Char) : List Char :=
  ((l.dropWhile isPySpace).reverse.dropWhile isPySpace).reverse

/-- Python `str.strip()`. -/
def pyStrip (s : String) : String := ⟨pyStripChars s.toList⟩

/-- Python `needle in hay` (substring containment) on character lists. -/
def listContains (pat : List Char) : List Char → Bool
  | [] => pat.isPrefixOf []
  | c :: rest => pat.isPrefixOf (c :: rest) || listContains pat rest

/-- Python `hay.startswith(needle)`. -/
def pyStartsWith (s pre : String) : Bool := pre.toList.isPrefixOf s.toList

/-- Python `needle in hay` on strings. -/
def pyInStr (needle hay : String) : Bool := listContains needle.toList hay.toList

/-- Python `str.lower()` (ASCII fragment; characters without an ASCII case
mapping, such as CJK glyphs, are unchanged). -/
def pyLower (s : String) : String := ⟨s.toList.map Char.toLower⟩

/-- Split a character list at separator characters (empty pieces kept). -/
def splitChars (p : Char → Bool) (acc : List Char) : List Char → List String
  | [] => [(⟨acc.reverse⟩ : String)]
  | c :: rest =>
    if p c then (⟨acc.reverse⟩ : String) :: splitChars p [] rest
    else splitChars p (c :: acc) rest

/-- The whitespace-separated class tokens of an element's `class`
attribute; bs4 matches `class_="c"` when `c` is one of these tokens. -/
def HNode.classTokens (n : HNode) : List String :=
  match n.getAttr "class" with
  | none => []
  | some s => (splitChars (fun c => isPySpace c) [] s.toList).filter (fun t => t ≠ "")

/-- bs4 matcher for `find_all(tag)`: element with the given tag name. -/
def tagIs (t : String) (n : HNode) : Bool :=
  match n with
  | .text _ => false
  | .elem tg _ _ => tg = t

/-- bs4 matcher for `find_all(tag, class_=c)` and CSS `tag.c`. -/
def tagClassIs (t c : String) (n : HNode) : Bool :=
  tagIs t n && n.classTokens.contains c

/-- bs4 matcher for `find(id=v)`: any element whose `id` attribute is `v`. -/
def idIs (v : String) (n : HNode) : Bool :=
  match n with
  | .text _ => false
  | .elem _ _ _ => n.getAttr "id" = some v

mutual
/-- bs4 `find_all(pred)` over a children list: all element nodes in the
forest matching `p`, in document (pre-)order. -/
def findAllNs (p : HNode → Bool) : HNodes → List HNode
  | .nil => []
  | .cons c cs => findAllInc p c ++ findAllNs p cs
termination_by structural l => l
/-- bs4 `find_all(pred)` over a subtree, the root included when it matches. -/
def findAllInc (p : HNode → Bool) : HNode → List HNode
  | .text _ => []
  | .elem t a cs =>
    (if p (.elem t a cs) then [HNode.elem t a cs] else []) ++ findAllNs p cs
termination_by structural n => n
end

/-- bs4 `node.find_all(pred)` (descendants of `n`, excluding `n`). -/
def HNode.findAll (n : HNode) (p : HNode → Bool) : List HNode :=
  match n with
  | .text _ => []
  | .elem _ _ cs => findAllNs p cs

/-- bs4 `node.find(pred)`: first matching descendant in document order. -/
def HNode.findFirst (n : HNode) (p : HNode → Bool) : Option HNode :=
  (n.findAll p).head?

mutual
/-- Text nodes of a forest, in document order. -/
def textsNs : HNodes → List String
  | .nil => []
  | .cons c cs => textsInc c ++ textsNs cs
termination_by structural l => l
/-- bs4 `.strings`: every text node in the subtree, in document order. -/
def textsInc : HNode → List String
  | .text s => [s]
  | .elem _ _ cs => textsNs cs
termination_by structural n => n
end

/-- bs4 `.stripped_strings`: each string stripped, empties dropped. -/
def strippedStrings (n : HNode) : List String :=
  ((textsInc n).map pyStrip).filter (fun s => s ≠ "")

/-- bs4 `get_text(strip=True)`: concatenation of the stripped strings. -/
def HNode.getTextStrip (n : HNode) : String :=
  String.join (strippedStrings n)

mutual
/-- The net effect of calling `extract()` on every node of a forest matching
`p`: matching subtrees are dropped whole, without descending into them, as
`extract()` detaches the entire subtree. -/
def removeAllNs (p : HNode → Bool) : HNodes → HNodes
  | .nil => .nil
  | .cons c cs =>
    if p c then removeAllNs p cs else .cons (removeAllInc p c) (removeAllNs p cs)
termination_by structural l => l
/-- `extract()` of every descendant of a node matching `p`. -/
def removeAllInc (p : HNode → Bool) : HNode → HNode
  | .text s => .text s
  | .elem t a cs => .elem t a (removeAllNs p cs)
termination_by structural n => n
end

/-- `extract()` of all descendants of `n` matching `p`. -/
def HNode.removeAll (n : HNode) (p : HNode → Bool) : HNode := removeAllInc p n

/-- Digit-string to number (`int()` on a known-numeric capture group). -/
def natOfDigits (l : List Char) : Nat :=
  l.foldl (fun n c => n * 10 + (c.toNat - '0'.toNat)) 0

/-- Python `\w` (ASCII fragment): letters, digits, underscore. -/
def isWordCh (c : Char) : Bool := c.isAlphanum || c = '_'

/-- Match exactly `k` digits at the head of the list, returning them and the
rest (one backtracking choice of a greedy `[0-9]{1,3}`). -/
def matchNDigits : Nat → List Char → Option (List Char × List Char)
  | 0, l => some ([], l)
  | _ + 1, [] => none
  | k + 1, c :: l =>
    if c.isDigit then (matchNDigits k l).map (fun p => (c :: p.1, p.2)) else none

/-- Match a literal dot at the head of the list. -/
def matchDot : List Char → Option (List Char)
  | '.' :: l => some l
  | _ => none

/-- The trailing `\b` of the IP pattern: the character after the final digit
must be absent or a non-word character. -/
def quadEndOk : List Char → Bool
  | [] => true
  | c :: _ => !isWordCh c

/-- First successful alternative, in order — regex backtracking over a list
of choices. -/
def firstSome {α β : Type} (f : α → Option β) : List α → Option β
  | [] => none
  | a :: as =>
    match f a with
    | some b => some b
    | none => firstSome f as

/-- Greedy order of lengths tried for `[0-9]{1,3}`. -/
def octetChoices : List Nat := [3, 2, 1]

/-- Match `(?:[0-9]{1,3}\.){3}[0-9]{1,3}\b` at the head of the list with
Python's greedy backtracking, returning the matched characters and the rest
of the list. -/
def matchQuadFrom (l : List Char) : Option (List Char × List Char) :=
  firstSome (fun k1 =>
    (matchNDigits k1 l).bind fun p1 =>
    (matchDot p1.2).bind fun r1 =>
    firstSome (fun k2 =>
      (matchNDigits k2 r1).bind fun p2 =>
      (matchDot p2.2).bind fun r2 =>
      firstSome (fun k3 =>
        (matchNDigits k3 r2).bind fun p3 =>
        (matchDot p3.2).bind fun r3 =>
        firstSome (fun k4 =>
          (matchNDigits k4 r3).bind fun p4 =>
          if quadEndOk p4.2 then
            some (p1.1 ++ '.' :: (p2.1 ++ '.' :: (p3.1 ++ '.' :: p4.1)), p4.2)
          else none) octetChoices) octetChoices) octetChoices) octetChoices

/-- `re.search` scan for the dotted-quad pattern: leftmost position whose
preceding character satisfies the leading `\b` (the match starts with a
digit, so the boundary holds iff the previous character is absent or
non-word).  Returns `(before, matched, after)`. -/
def searchQuadAux (prevOk : Bool) : List Char → Option (List Char × List Char × List Char)
  | [] => none
  | c :: rest =>
    match (if prevOk then matchQuadFrom (c :: rest) else none) with
    | some (m, r) => some ([], m, r)
    | none => (searchQuadAux (!isWordCh c) rest).map (fun t => (c :: t.1, t.2.1, t.2.2))

/-- `re.search(r"\b(?:[0-9]{1,3}\.){3}[0-9]{1,3}\b", s)` decomposed as
`(before, matched, after)`; `none` when there is no match. -/
def searchQuad (l : List Char) : Option (List Char × List Char × List Char) :=
  searchQuadAux true l

/-- Python `s.replace(pat, "")` — delete every non-overlapping occurrence of
`pat`, scanning left to right.  Structured with a fuel argument (the length
of `s`, an upper bound on the number of steps) so the definition computes by
structural recursion. -/
def replaceAllFuel (pat : List Char) : Nat → List Char → List Char
  | _, [] => []
  | 0, l => l
  | fuel + 1, c :: rest =>
    if pat ≠ [] && pat.isPrefixOf (c :: rest) then
      replaceAllFuel pat fuel ((c :: rest).drop pat.length)
    else c :: replaceAllFuel pat fuel rest

/-- Python `s.replace(pat, "")`. -/
def pyReplaceDel (pat l : List Char) : List Char := replaceAllFuel pat l.length l

/-- Lines 131-139 of `ppt.py` / 255-263 of `ptt_crawler.py`: search the
dotted-quad pattern in the comment's timestamp+ip text; on a match the IP is
the matched text and the timestamp is the text with every occurrence of the
IP deleted and then stripped; otherwise the IP is the sentinel and the
timestamp text is unchanged.  Returns `(push_ip, push_datetime)`. -/
def ipDatetimeSplit (sentinel : String) (s : String) : String × String :=
  match searchQuad s.toList with
  | some (_, m, _) => (⟨m⟩, ⟨pyStripChars (pyReplaceDel m s.toList)⟩)
  | none => (sentinel, s)

example : ipDatetimeSplit "None" "05/01 12:34 140.112.25.4" = ("140.112.25.4", "05/01 12:34") := by decide
example : ipDatetimeSplit "None" "05/01 12:34" = ("None", "05/01 12:34") := by decide
example : ipDatetimeSplit "None" "1.2.3.4 5.6.7.8" = ("1.2.3.4", "5.6.7.8") := by decide

/-- One comment ("push") record, as the keys of the message dict built by
`parse_article_content`. -/
structure PushMsg where
  push_tag : String
  push_userid : String
  push_content : String
  push_ip : String
  push_datetime : String
deriving Repr, DecidableEq

/-- The comment-loop state: the `messages` list and the three tag counters
(`push_count`, `boo_count`, `neutral_count`). -/
structure PushAcc where
  messages : List PushMsg
  push_count : Nat
  boo_count : Nat
  neutral_count : Nat
deriving Repr, DecidableEq

/-- `meta.select("span.article-meta-value")[0].get_text(strip=True)`:
`none` when the row has no such span (an `IndexError` in the source). -/
def metaVal (meta : HNode) : Option String :=
  ((meta.findAll (tagClassIs "span" "article-meta-value")).head?).map HNode.getTextStrip

/-- The author/title/date assignment: only runs when at least three metadata
rows exist; inside the guarded block the three assignments run in order and
the first failing lookup aborts the rest (the `try`/`except` around them),
leaving the remaining fields at the empty string. -/
def metaFields (metas : List HNode) : String × String × String :=
  match metas with
  | m0 :: m1 :: m2 :: _ =>
    match metaVal m0 with
    | none => ("", "", "")
    | some a =>
      match metaVal m1 with
      | none => (a, "", "")
      | some t =>
        match metaVal m2 with
        | none => (a, t, "")
        | some d => (a, t, d)
  | _ => ("", "", "")

/-- The comment-content cleanup: one leading separator `:` removed, then the
remainder stripped of surrounding whitespace. -/
def cleanPushContent (s : String) : String :=
  if pyStartsWith s ":" then pyStrip ⟨s.toList.drop 1⟩ else s

/-- One iteration of the push loop: when the tag, user id, content and
timestamp spans are all present, append the message and bump exactly one
counter (`推` → push, `噓` → boo, anything else → neutral); when any span is
missing, skip the comment leaving the state unchanged. -/
def processPush (sentinel : String) (acc : PushAcc) (push : HNode) : PushAcc :=
  match push.findFirst (tagClassIs "span" "push-tag"),
        push.findFirst (tagClassIs "span" "push-userid"),
        push.findFirst (tagClassIs "span" "push-content"),
        push.findFirst (tagClassIs "span" "push-ipdatetime") with
  | some tagE, some uidE, some contE, some dtE =>
    let tag := tagE.getTextStrip
    let userid := uidE.getTextStrip
    let content := cleanPushContent contE.getTextStrip
    let ipdt := ipDatetimeSplit sentinel dtE.getTextStrip
    let msg : PushMsg :=
      { push_tag := tag, push_userid := userid, push_content := content,
        push_ip := ipdt.1, push_datetime := ipdt.2 }
    if tag = "推" then
      { acc with messages := acc.messages ++ [msg], push_count := acc.push_count + 1 }
    else if tag = "噓" then
      { acc with messages := acc.messages ++ [msg], boo_count := acc.boo_count + 1 }
    else
      { acc with messages := acc.messages ++ [msg], neutral_count := acc.neutral_count + 1 }
  | _, _, _, _ => acc

/-- The content-body strings: each stripped string of the remaining tree,
skipping system-message lines (`※`, `◆`, `--` prefixes), each appended
stripped. -/
def contentStrings (n : HNode) : List String :=
  ((strippedStrings n).filter
    (fun s => !(pyStartsWith s "※" || pyStartsWith s "◆" || pyStartsWith s "--"))).map pyStrip

/-- `re.sub(r"\s+", " ", s)`: collapse every whitespace run to one space. -/
def collapseWsAux (prevSpace : Bool) : List Char → List Char
  | [] => []
  | c :: rest =>
    if isPySpace c then
      if prevSpace then collapseWsAux true rest
      else ' ' :: collapseWsAux true rest
    else c :: collapseWsAux false rest

/-- `re.sub(r"\s+", " ", s)`. -/
def collapseWs (s : String) : String := ⟨collapseWsAux false s.toList⟩

/-- The poster-IP scan: the first remaining string that contains the
posted-from marker and a dotted-quad match yields that match; otherwise the
sentinel. -/
def posterIpScan (sentinel : String) : List String → String
  | [] => sentinel
  | s :: rest =>
    if pyInStr "※ 發信站:" s then
      match searchQuad s.toList with
      | some (_, m, _) => (⟨m⟩ : String)
      | none => posterIpScan sentinel rest
    else posterIpScan sentinel rest

/-- The fields produced by the body of `parse_article_content` shared by
`ppt.py` (lines 77-208) and `ptt_crawler.py` (lines 200-318); the two files
differ only in the missing-IP sentinel (`"None"` vs `"Unknown"`) and in how
the fields are packaged. -/
structure ParsedCore where
  title : String
  author : String
  date : String
  content : String
  ip : String
  push_count : Nat
  boo_count : Nat
  neutral_count : Nat
  messages : List PushMsg
deriving Repr, DecidableEq

/-- The shared body of `parse_article_content`: locate `main-content` (absent
→ `None`), read the metadata rows, extract metadata and push blocks from the
tree, fold the push loop, rebuild the content text from the remaining
strings, and scan for the poster IP. -/
def parseCore (sentinel : String) (doc : HNode) : Option ParsedCore :=
  match doc.findFirst (idIs "main-content") with
  | none => none
  | some mc =>
    let metas := mc.findAll (tagClassIs "div" "article-metaline")
    let atd := metaFields metas
    let afterMeta := mc.removeAll (fun n =>
      tagClassIs "div" "article-metaline" n || tagClassIs "div" "article-metaline-right" n)
    let pushes := afterMeta.findAll (tagClassIs "div" "push")
    let acc := pushes.foldl (processPush sentinel) ⟨[], 0, 0, 0⟩
    let afterPush := afterMeta.removeAll (tagClassIs "div" "push")
    let content := pyStrip (collapseWs (String.intercalate " " (contentStrings afterPush)))
    let ip := posterIpScan sentinel (textsInc afterPush)
    some { title := atd.2.1, author := atd.1, date := atd.2.2, content := content, ip := ip,
           push_count := acc.push_count, boo_count := acc.boo_count,
           neutral_count := acc.neutral_count, messages := acc.messages }

/-- The `message_count` dict of `ppt.py` (lines 186-193). -/
structure MsgCount where
  all : Nat
  count : Int
  push : Nat
  boo : Nat
  neutral : Nat
deriving Repr, DecidableEq

/-- The dict returned by `ppt.py`'s `parse_article_content` (lines 195-204). -/
structure PyParsed where
  url : String
  article_title : String
  author : String
  date : String
  content : String
  ip : String
  message_count : MsgCount
  messages : List PushMsg
deriving Repr, DecidableEq

/-- `ppt.py` `parse_article_content(article_url, session)`: the fetched
document is passed in (`none` = failed fetch, absorbed to `None`). -/
def parse_article_content (article_url : String) (doc : HNode) : Option PyParsed :=
  (parseCore "None" doc).map fun c =>
    { url := article_url, article_title := c.title, author := c.author, date := c.date,
      content := c.content, ip := c.ip,
      message_count :=
        { all := c.push_count + c.boo_count + c.neutral_count,
          count := (c.push_count : Int) - (c.boo_count : Int),
          push := c.push_count, boo := c.boo_count, neutral := c.neutral_count },
      messages := c.messages }

/-- The dict returned by `ptt_crawler.py`'s
`PTTCrawler.parse_article_content` (lines 307-318). -/
structure PCParsed where
  title : String
  author : String
  date : String
  content : String
  ip : String
  push_count : Nat
  boo_count : Nat
  neutral_count : Nat
  total_messages : Nat
  messages : List PushMsg
deriving Repr, DecidableEq

/-- `ptt_crawler.py` `PTTCrawler.parse_article_content(article_url)` on an
already fetched document. -/
def PTTCrawler.parse_article_content (doc : HNode) : Option PCParsed :=
  (parseCore "Unknown" doc).map fun c =>
    { title := c.title, author := c.author, date := c.date,
      content := c.content, ip := c.ip,
      push_count := c.push_count, boo_count := c.boo_count,
      neutral_count := c.neutral_count,
      total_messages := c.push_count + c.boo_count + c.neutral_count,
      messages := c.messages }

/-- Python `s.split(sep)` with a non-empty string separator (fuel-structured;
fuel is the input length, an upper bound on the steps). -/
def splitOnAux (sep : List Char) : Nat → List Char → List Char → List (List Char)
  | _, acc, [] => [acc.reverse]
  | 0, acc, l => [acc.reverse ++ l]
  | fuel + 1, acc, c :: rest =>
    if sep ≠ [] && sep.isPrefixOf (c :: rest) then
      acc.reverse :: splitOnAux sep fuel [] ((c :: rest).drop sep.length)
    else splitOnAux sep fuel (c :: acc) rest

/-- Python `s.split(sep)`. -/
def pySplit (sep : String) (s : String) : List String :=
  (splitOnAux sep.toList s.toList.length [] s.toList).map (fun l => (⟨l⟩ : String))

/-- Python `s.replace(pat, "")` on strings. -/
def pyReplace (pat s : String) : String := ⟨pyReplaceDel pat.toList s.toList⟩

/-- `href.split("/")[-1].replace(".html", "")`: the article id derived from
the last path segment of the article URL. -/
def article_id_of (href : String) : String :=
  pyReplace ".html" ((pySplit "/" href).getLastD "")

/-- A listing-page article summary as built by `ppt.py`'s
`extract_article_links` (lines 63-69). -/
structure PySummary where
  url : String
  article_id : String
  title : String
  author : String
  date : String
deriving Repr, DecidableEq

/-- The summary built for one well-formed `r-ent` entry (`ppt.py` lines
54-69). -/
def summaryFromREnt (div link : HNode) (href : String) : PySummary :=
  { url := "https://www.ptt.cc" ++ href,
    article_id := article_id_of href,
    title := link.getTextStrip,
    author := match div.findFirst (tagClassIs "div" "author") with
              | some a => a.getTextStrip
              | none => "",
    date := match div.findFirst (tagClassIs "div" "date") with
            | some d => d.getTextStrip
            | none => "" }

/-- The body of the `ppt.py` listing loop (lines 51-69) as an optional
summary: `none` exactly when the entry is skipped (missing link element, or
missing or empty — falsy — `href`). -/
def summaryOfREnt (div : HNode) : Option PySummary :=
  match div.findFirst (tagIs "a") with
  | none => none
  | some link =>
    match link.getAttr "href" with
    | none => none
    | some href => if href = "" then none else some (summaryFromREnt div link href)

/-- `ppt.py` `extract_article_links` on a fetched listing document: iterate
the `div.r-ent` entries in document order, appending the summary of each
kept entry. -/
def extract_article_links (doc : HNode) : List PySummary :=
  (doc.findAll (tagClassIs "div" "r-ent")).foldl (fun acc div =>
    match summaryOfREnt div with
    | some s => acc ++ [s]
    | none => acc) []

/-- A well-formed listing entry in the spec's sense: it has a link element
carrying a (non-empty, i.e. truthy) `href`. -/
def wellFormedREnt (div : HNode) : Bool :=
  match div.findFirst (tagIs "a") with
  | none => false
  | some link => ((link.getAttr "href").getD "") ≠ ""

/-- `urllib.parse.urljoin("https://www.ptt.cc", href)` for the href shapes
reaching it (absolute URLs, scheme-relative, root-relative, relative and
empty references against the fixed netloc-only base). -/
def pyUrljoin (href : String) : String :=
  if pyStartsWith href "http://" || pyStartsWith href "https://" then href
  else if pyStartsWith href "//" then "https:" ++ href
  else if pyStartsWith href "/" then "https://www.ptt.cc" ++ href
  else if href = "" then "https://www.ptt.cc"
  else "https://www.ptt.cc/" ++ href

/-- A listing-page article summary as built by `ptt_crawler.py`'s
`PTTCrawler.extract_articles_from_page` (lines 188-196). -/
structure PCSummary where
  board : String
  article_id : String
  title : String
  author : String
  date : String
  url : String
  push_preview : String
deriving Repr, DecidableEq

/-- The summary built for one well-formed `r-ent` entry (`ptt_crawler.py`
lines 175-196). -/
def summaryFromREntPC (board_name : String) (div link : HNode) (href : String) : PCSummary :=
  { board := board_name,
    article_id := article_id_of href,
    title := link.getTextStrip,
    author := match div.findFirst (tagClassIs "div" "author") with
              | some a => a.getTextStrip
              | none => "",
    date := match div.findFirst (tagClassIs "div" "date") with
            | some d => d.getTextStrip
            | none => "",
    url := pyUrljoin href,
    push_preview := match div.findFirst (tagClassIs "div" "nrec") with
                    | some e => e.getTextStrip
                    | none => "" }

/-- The body of the `ptt_crawler.py` listing loop (lines 170-196) as an
optional summary (same skip guard as `ppt.py`, lines 171-173). -/
def summaryOfREntPC (board_name : String) (div : HNode) : Option PCSummary :=
  match div.findFirst (tagIs "a") with
  | none => none
  | some link =>
    match link.getAttr "href" with
    | none => none
    | some href => if href = "" then none else some (summaryFromREntPC board_name div link href)

/-- `ptt_crawler.py` `PTTCrawler.extract_articles_from_page` on a fetched
listing document (same traversal and skip guard as `ppt.py`). -/
def PTTCrawler.extract_articles_from_page (board_name : String) (doc : HNode) : List PCSummary :=
  (doc.findAll (tagClassIs "div" "r-ent")).foldl (fun acc div =>
    match summaryOfREntPC board_name div with
    | some s => acc ++ [s]
    | none => acc) []

/-- Element builder on a plain child list. -/
def mkEl (tag : String) (attrs : List (String × String)) (children : List HNode) : HNode :=
  .elem tag attrs (HNodes.ofList children)

/-- Python `int(s)` (ASCII fragment: optional surrounding whitespace,
optional sign, decimal digits); `.error` is the `ValueError` the source
would raise. -/
def pyIntChars (l : List Char) : Except String Int :=
  match pyStripChars l with
  | '-' :: ds =>
    if ds ≠ [] && ds.all Char.isDigit then .ok (-(natOfDigits ds : Int))
    else .error "ValueError"
  | '+' :: ds =>
    if ds ≠ [] && ds.all Char.isDigit then .ok ((natOfDigits ds : Int))
    else .error "ValueError"
  | ds =>
    if ds ≠ [] && ds.all Char.isDigit then .ok ((natOfDigits ds : Int))
    else .error "ValueError"

/-- Python `int(s)`. -/
def pyInt (s : String) : Except String Int := pyIntChars s.toList

/-- Try `LITERAL (\d+) LITERAL` at the head of the list: the fixed prefix,
then a maximal non-empty digit run, then the fixed suffix.  (The digit run
is maximal-munch, equivalent to the greedy `(\d+)` here because both
literal suffixes begin with a non-digit.) -/
def tryLitNumLit (pre post l : List Char) : Option Nat :=
  if pre.isPrefixOf l then
    let l1 := l.drop pre.length
    let digs := l1.takeWhile Char.isDigit
    if digs ≠ [] && post.isPrefixOf (l1.drop digs.length) then some (natOfDigits digs)
    else none
  else none

/-- `re.search` scan for `LITERAL (\d+) LITERAL`: leftmost occurrence,
returning the captured number. -/
def searchLitNumLit (pre post : List Char) : List Char → Option Nat
  | [] => tryLitNumLit pre post []
  | c :: rest =>
    match tryLitNumLit pre post (c :: rest) with
    | some n => some n
    | none => searchLitNumLit pre post rest

/-- The primary pagination pattern
`href="/bbs/{board_name}/index(\d+)\.html">&lsaquo;` searched in the raw
response text (`ptt_crawler.py` lines 143-146). -/
def searchPrevLink (board_name text : String) : Option Nat :=
  searchLitNumLit ("href=\"/bbs/" ++ board_name ++ "/index").toList
    (".html\">&lsaquo;").toList text.toList

/-- The fallback href pattern `/{board_name}/index(\d+)\.html`, applied by
`re.search` semantics (match anywhere in the href). -/
def hasIndexPattern (board_name href : String) : Bool :=
  (searchLitNumLit ("/" ++ board_name ++ "/index").toList ".html".toList href.toList).isSome

/-- `find_all("a", href=re.compile(...))` matcher: an `a` element whose
`href` attribute exists and matches the fallback pattern. -/
def isPageLink (board_name : String) (n : HNode) : Bool :=
  tagIs "a" n &&
    (match n.getAttr "href" with
     | some href => hasIndexPattern board_name href
     | none => false)

/-- `int(p.get("href").split("index")[1].replace(".html", ""))`: the page
number parsed from one matched link (`ptt_crawler.py` lines 153-154);
`.error` is the `IndexError`/`ValueError` the expression can raise. -/
def pageNumOfHref (href : String) : Except String Int :=
  match pySplit "index" href with
  | _ :: second :: _ => pyInt (pyReplace ".html" second)
  | _ => .error "IndexError"

/-- The page numbers of all matched links, left to right; the first raised
exception propagates. -/
def collectPageNums : List HNode → Except String (List Int)
  | [] => .ok []
  | n :: ns =>
    match n.getAttr "href" with
    | none => .error "AttributeError"
    | some href =>
      match pageNumOfHref href with
      | .error e => .error e
      | .ok v => (collectPageNums ns).map (fun vs => v :: vs)

/-- Python `max` of a non-empty list (the `[]` case is unreachable behind
the source's non-emptiness guard). -/
def maxOfInts : List Int → Int
  | [] => 0
  | x :: xs => xs.foldl max x

/-- `ptt_crawler.py` `PTTCrawler.get_latest_page_number` (lines 134-157) on
the fetch outcome of the board index page: a failed fetch yields 0; the
primary previous-page pattern yields its number plus one; otherwise all
page-number links are collected and their maximum returned, 0 when there
are none.  The response carries both the raw text (searched by the primary
regex) and its parsed tree (searched by the fallback). -/
def PTTCrawler.get_latest_page_number (board_name : String) :
    Option (String × HNode) → Except String Int
  | none => .ok 0
  | some (text, soup) =>
    match searchPrevLink board_name text with
    | some n => .ok ((n : Int) + 1)
    | none =>
      match soup.findAll (isPageLink board_name) with
      | [] => .ok 0
      | links =>
        match collectPageNums links with
        | .error e => .error e
        | .ok pages => .ok (maxOfInts pages)

/-- `ptt_crawler.py` `PTTCrawler._make_request` (lines 117-132) with the
network supplied as an oracle giving each attempt's outcome (`none` = a
`RequestException`).  Arguments of the recursion: iterations left in
`range(max_retries)`, the current `attempt` index, and the backoff sleeps
performed so far.  Returns the response (or `None`), the number of attempts
performed, and the list of inter-attempt sleep durations in order. -/
def makeRequestGo {α : Type} (oracle : Nat → Option α) (max_retries : Nat) :
    Nat → Nat → List Nat → Option α × Nat × List Nat
  | 0, attempt, sleeps => (none, attempt, sleeps)
  | remaining + 1, attempt, sleeps =>
    match oracle attempt with
    | some r => (some r, attempt + 1, sleeps)
    | none =>
      if attempt < max_retries - 1 then
        makeRequestGo oracle max_retries remaining (attempt + 1) (sleeps ++ [2 ^ attempt])
      else (none, attempt + 1, sleeps)

/-- `PTTCrawler._make_request` with `max_retries` retries. -/
def PTTCrawler.make_request {α : Type} (max_retries : Nat) (oracle : Nat → Option α) :
    Option α × Nat × List Nat :=
  makeRequestGo oracle max_retries max_retries 0 []

/-- The network, as the crawler sees it after `_make_request` absorbed
transient errors: each fetchable unit either yields a parsed document or a
fetch failure (`none`, retries exhausted).  `indexDoc` also carries the raw
response text used by the primary pagination regex. -/
structure CrawlEnv where
  indexDoc : Option (String × HNode)
  listingDoc : Nat → Option HNode
  articleDoc : String → Option HNode

/-- `ppt.py` `extract_article_links` including its fetch guard: a
`RequestException` is absorbed to an empty listing (lines 73-75). -/
def extract_article_links_fetched (env : CrawlEnv) (page : Nat) : List PySummary :=
  match env.listingDoc page with
  | none => []
  | some doc => extract_article_links doc

/-- `ppt.py` `parse_article_content` including its fetch guard: any failure
is absorbed to `None` (lines 206-208). -/
def parse_article_content_fetched (env : CrawlEnv) (url : String) : Option PyParsed :=
  match env.articleDoc url with
  | none => none
  | some doc => parse_article_content url doc

/-- `ptt_crawler.py` `extract_articles_from_page` including its fetch guard
(lines 162-165): a failed fetch yields an empty listing. -/
def PTTCrawler.extract_articles_from_page_fetched (board_name : String)
    (env : CrawlEnv) (page : Nat) : List PCSummary :=
  match env.listingDoc page with
  | none => []
  | some doc => PTTCrawler.extract_articles_from_page board_name doc

/-- `ptt_crawler.py` `PTTCrawler.parse_article_content` including its fetch
guard (lines 202-204). -/
def PTTCrawler.parse_article_content_fetched (env : CrawlEnv) (url : String) :
    Option PCParsed :=
  match env.articleDoc url with
  | none => none
  | some doc => PTTCrawler.parse_article_content doc

/-- Python `range(start_page, end_page + 1)`. -/
def pageRange (start_page end_page : Nat) : List Nat :=
  List.range' start_page (end_page + 1 - start_page)

/-- The merged per-article dict of `ppt.py` `crawl_board_pages`
(lines 230-234): board and article id from the summary, everything else
from the parsed content. -/
structure PyRecord where
  board : String
  article_id : String
  url : String
  article_title : String
  author : String
  date : String
  content : String
  ip : String
  message_count : MsgCount
  messages : List PushMsg
deriving Repr, DecidableEq

/-- `full_article = dict(board=..., article_id=..., **content)`. -/
def mkPyRecord (board_name : String) (a : PySummary) (c : PyParsed) : PyRecord :=
  { board := board_name, article_id := a.article_id, url := c.url,
    article_title := c.article_title, author := c.author, date := c.date,
    content := c.content, ip := c.ip, message_count := c.message_count,
    messages := c.messages }

/-- `ppt.py` `crawl_board_pages` (lines 210-255), returning the
`all_articles` list it accumulates and persists: sequential pages, per page
the listing summaries, per summary a detail parse whose failure (`None`)
skips only that article. -/
def crawl_board_pages (board_name : String) (env : CrawlEnv)
    (start_page end_page : Nat) : List PyRecord :=
  (pageRange start_page end_page).foldl (fun all_articles page =>
    (extract_article_links_fetched env page).foldl (fun acc article =>
      match parse_article_content_fetched env article.url with
      | some content => acc ++ [mkPyRecord board_name article content]
      | none => acc) all_articles) []

/-- The `Article` dataclass of `ptt_crawler.py` (lines 33-55).  The
`crawl_time` field (stamped from the wall clock in `__post_init__`) is
outside the embedding. -/
structure Article where
  board : String
  article_id : String
  title : String
  author : String
  date : String
  content : String
  url : String
  ip : String
  push_count : Nat
  boo_count : Nat
  neutral_count : Nat
  total_messages : Nat
  messages : List PushMsg
deriving Repr, DecidableEq

/-- The keys of the `basic_info` dict built by
`extract_articles_from_page` (lines 188-196). -/
def basicInfoKeys : List String :=
  ["board", "article_id", "title", "author", "date", "url", "push_preview"]

/-- The keys of the dict returned by `PTTCrawler.parse_article_content`
(lines 307-318). -/
def detailedContentKeys : List String :=
  ["title", "author", "date", "content", "ip", "push_count", "boo_count",
   "neutral_count", "total_messages", "messages"]

/-- The keyword parameters accepted by `Article.__init__` (the dataclass
fields, lines 36-49). -/
def articleInitKeys : List String :=
  ["board", "article_id", "title", "author", "date", "content", "url", "ip",
   "push_count", "boo_count", "neutral_count", "total_messages", "messages",
   "crawl_time"]

/-- `Article(**{**basic_info, **detailed_content})` raises `TypeError`
unless every key of the merged dict is an accepted `__init__` parameter;
this flag is that key check (all required parameters are always present in
the merge, so it is the only way the construction can fail). -/
def articleCtorOk : Bool :=
  (basicInfoKeys ++ detailedContentKeys).all (fun k => articleInitKeys.contains k)

/-- The `Article` value the merge would produce, ignoring the extraneous
`push_preview` key: detail fields override the summary fields of the same
name (`title`, `author`, `date`); board, id and url come from the summary. -/
def mkMergedArticle (basic : PCSummary) (detail : PCParsed) : Article :=
  { board := basic.board, article_id := basic.article_id, title := detail.title,
    author := detail.author, date := detail.date, content := detail.content,
    url := basic.url, ip := detail.ip, push_count := detail.push_count,
    boo_count := detail.boo_count, neutral_count := detail.neutral_count,
    total_messages := detail.total_messages, messages := detail.messages }

/-- `ptt_crawler.py` `PTTCrawler.crawl_pages_range` (lines 347-403).  The
thread-pool fan-out of detail fetches is embedded as sequential completion
in listing order (one admissible `as_completed` schedule); each worker's
outcome is independent of the others.  A per-article exception —
including the `TypeError` raised when the merged dict's keys are not all
`Article.__init__` parameters — is absorbed by the per-future `except`
(lines 384-385), dropping that article only. -/
def PTTCrawler.crawl_pages_range (board_name : String) (env : CrawlEnv)
    (start_page end_page : Nat) (include_content : Bool) : List Article :=
  (pageRange start_page end_page).foldl (fun all_articles page =>
    let articles_basic := PTTCrawler.extract_articles_from_page_fetched board_name env page
    if include_content then
      articles_basic.foldl (fun acc basic_info =>
        match PTTCrawler.parse_article_content_fetched env basic_info.url with
        | some detailed_content =>
          if articleCtorOk then acc ++ [mkMergedArticle basic_info detailed_content]
          else acc
        | none => acc) all_articles
    else
      articles_basic.foldl (fun acc b =>
        acc ++ [{ board := b.board, article_id := b.article_id, title := b.title,
                  author := b.author, date := b.date, url := b.url, content := "",
                  ip := "Unknown", push_count := 0, boo_count := 0, neutral_count := 0,
                  total_messages := 0, messages := [] }]) all_articles) []

/-- The pages scanned by `search_articles`:
`range(max(1, latest_page - max_pages + 1), latest_page + 1)`
(`ptt_crawler.py` lines 409-414). -/
def scanPages (latest_page : Int) (max_pages : Nat) : List Nat :=
  let start_page : Int := max 1 (latest_page - (max_pages : Int) + 1)
  List.range' start_page.toNat (latest_page + 1 - start_page).toNat

/-- `ptt_crawler.py` `PTTCrawler.search_articles` (lines 405-425): resolve
the latest page, scan the last `max_pages` listing pages in increasing
order, and keep the summaries whose lowercased title contains the
lowercased keyword.  No detail fetch is involved.  An exception from the
resolver propagates. -/
def PTTCrawler.search_articles (board_name : String) (env : CrawlEnv)
    (keyword : String) (max_pages : Nat) : Except String (List PCSummary) :=
  match PTTCrawler.get_latest_page_number board_name env.indexDoc with
  | .error e => .error e
  | .ok latest_page =>
    .ok ((scanPages latest_page max_pages).foldl (fun found page =>
      (PTTCrawler.extract_articles_from_page_fetched board_name env page).foldl
        (fun acc article =>
          if pyInStr (pyLower keyword) (pyLower article.title) then acc ++ [article]
          else acc)
        found) [])

/-- A metadata row as on a PTT article page: tag span plus value span. -/
def metaRow (v : String) : HNode :=
  mkEl "div" [("class", "article-metaline")]
    [mkEl "span" [("class", "article-meta-tag")] [.text "Tag"],
     mkEl "span" [("class", "article-meta-value")] [.text v]]

/-- A comment block with all four subfields present. -/
def pushDiv (tag uid content ipdt : String) : HNode :=
  mkEl "div" [("class", "push")]
    [mkEl "span" [("class", "push-tag")] [.text tag],
     mkEl "span" [("class", "push-userid")] [.text uid],
     mkEl "span" [("class", "push-content")] [.text content],
     mkEl "span" [("class", "push-ipdatetime")] [.text ipdt]]

/-- A well-formed listing entry. -/
def rEntDiv (href title : String) : HNode :=
  mkEl "div" [("class", "r-ent")]
    [mkEl "div" [("class", "nrec")] [.text "12"],
     mkEl "div" [("class", "title")] [mkEl "a" [("href", href)] [.text title]],
     mkEl "div" [("class", "author")] [.text "alice"],
     mkEl "div" [("class", "date")] [.text "5/01"]]

/-- A listing page with two well-formed entries. -/
def listingTwo : HNode :=
  mkEl "html" [] [rEntDiv "/bbs/Test/M.1.A.html" "first", rEntDiv "/bbs/Test/M.2.A.html" "second"]

/-- A minimal article page whose main content is plain body text. -/
def simpleArticle : HNode :=
  mkEl "html" [] [mkEl "div" [("id", "main-content")] [.text "hello body"]]

/-- Crawl scenario of the spec's orchestrator property: one listing page
(page 3) with two summaries; the detail fetch succeeds for the first
article and fails (retries exhausted) for the second. -/
def scenarioEnv : CrawlEnv :=
  { indexDoc := none,
    listingDoc := fun p => if p = 3 then some listingTwo else none,
    articleDoc := fun u =>
      if u = "https://www.ptt.cc/bbs/Test/M.1.A.html" then some simpleArticle else none }

/-- Index-page text whose previous-page link encodes page 41. -/
def text41 : String :=
  "<div class=\"btn-group btn-group-paging\"><a class=\"btn wide\" href=\"/bbs/Gossiping/index41.html\">&lsaquo; Prev</a></div>"

/-- Index-page text with no previous-page link. -/
def textNoPrev : String := "<div class=\"btn-group\">no paging here</div>"

/-- One numeric page link of the fallback pattern. -/
def pageLinkEl (i : Nat) : HNode :=
  mkEl "a" [("href", "/bbs/Test/index" ++ toString i ++ ".html")] [.text (toString i)]

/-- A parsed index page carrying the numeric page links 1..9 and no
previous-page link. -/
def soupNine : HNode := mkEl "html" [] ((List.range' 1 9).map pageLinkEl)

/-- An article whose single comment has all four subfields and a content
text beginning with two separator characters. -/
def doubleColonDoc : HNode :=
  mkEl "html" []
    [mkEl "div" [("id", "main-content")] [pushDiv "推" "userA" "::mid" "05/01 12:00"]]

/-- An article page with only two metadata rows (author and title rows
present and readable, date row missing). -/
def twoMetaDoc : HNode :=
  mkEl "html" []
    [mkEl "div" [("id", "main-content")] [metaRow "alice", metaRow "a title", .text "body"]]

/-- The `main-content` element of `twoMetaDoc`. -/
def twoMetaMain : HNode :=
  mkEl "div" [("id", "main-content")] [metaRow "alice", metaRow "a title", .text "body"]

/-- An article page exercising the comment tally: one agree, one disagree,
one neutral comment. -/
def tallyDoc : HNode := mkEl "html" [] [
  mkEl "div" [("id", "main-content")] [
    metaRow "author1 (nick)",
    metaRow "[Q] test title",
    metaRow "Mon May  1 12:00:00 2023",
    .text "first line of body\n",
    .text "※ 發信站: 批踢踢實業坊(ptt.cc), 來自: 1.2.3.4\n",
    pushDiv "推" "userA" ": nice" "05/01 12:34",
    pushDiv "噓" "userB" ": bad" " 140.112.1.2 05/01 12:35",
    pushDiv "→" "userC" ": mid" "05/01 12:36"]]

/-- Environment for keyword search: the index page resolves to latest page
42 via the previous-page link; every listing fetch fails. -/
def searchEnv : CrawlEnv :=
  { indexDoc := some (text41, mkEl "html" [] []),
    listingDoc := fun _ => none,
    articleDoc := fun _ => none }

/-- Environment whose index fetch fails, so the pagination resolver yields 0. -/
def deadEnv : CrawlEnv :=
  { indexDoc := none, listingDoc := fun _ => none, articleDoc := fun _ => none }

/-- The record `parse_article_content` produces for `tallyDoc`. -/
def tallyParsed : PyParsed :=
  { url := "http://x",
    article_title := "[Q] test title",
    author := "author1 (nick)",
    date := "Mon May  1 12:00:00 2023",
    content := "first line of body",
    ip := "1.2.3.4",
    message_count := { all := 3, count := 0, push := 1, boo := 1, neutral := 1 },
    messages := [
      { push_tag := "推", push_userid := "userA", push_content := "nice",
        push_ip := "None", push_datetime := "05/01 12:34" },
      { push_tag := "噓", push_userid := "userB", push_content := "bad",
        push_ip := "140.112.1.2", push_datetime := "05/01 12:35" },
      { push_tag := "→", push_userid := "userC", push_content := "mid",
        push_ip := "None", push_datetime := "05/01 12:36" }] }

/-- C4: for a URL on which every attempt fails, `_make_request` with
`max_retries = 3` performs exactly 3 attempts, sleeps `2^attempt` time
units between consecutive attempts (delays strictly increasing), and
returns `None` instead of raising. -/
theorem retry_exhaustion (oracle : Nat → Option String) (h : ∀ i, oracle i = none) :
    PTTCrawler.make_request 3 oracle = (none, 3, [2 ^ 0, 2 ^ 1]) ∧
    List.Chain' (· < ·) (PTTCrawler.make_request 3 oracle).2.2 := by
  have e : PTTCrawler.make_request 3 oracle = (none, 3, [1, 2]) := by
    simp [PTTCrawler.make_request, makeRequestGo, h]
  refine ⟨?_, ?_⟩
  · rw [e]; decide
  · rw [e]; simp [List.chain'_cons]

/-- Witness for `retry_exhaustion` at the always-failing oracle. -/
theorem retry_exhaustion_witness :
    PTTCrawler.make_request 3 (fun _ => (none : Option String)) = (none, 3, [2 ^ 0, 2 ^ 1]) :=
  (retry_exhaustion (fun _ => none) (fun _ => rfl)).1

/-- C3: `get_latest_page_number` returns `n + 1` when the primary
previous-page pattern captures `n` (41 yields 42 on a concrete page); with
no primary link it returns the maximum over the numeric page links
(links 1..9 yield 9); a failed fetch yields 0. -/
theorem latest_page_resolution :
    (∀ (board text : String) (soup : HNode) (n : Nat),
      searchPrevLink board text = some n →
      PTTCrawler.get_latest_page_number board (some (text, soup)) = .ok ((n : Int) + 1)) ∧
    PTTCrawler.get_latest_page_number "Gossiping" (some (text41, mkEl "html" [] [])) = .ok 42 ∧
    PTTCrawler.get_latest_page_number "Test" (some (textNoPrev, soupNine)) = .ok 9 ∧
    ∀ board : String, PTTCrawler.get_latest_page_number board none = .ok 0 := by
  refine ⟨?_, by rfl, by rfl, fun board => rfl⟩
  intro board text soup n h
  simp only [PTTCrawler.get_latest_page_number]
  rw [h]

/-- Witness for `latest_page_resolution`: the primary-pattern branch at a
concrete page encoding 41. -/
theorem latest_page_resolution_witness :
    PTTCrawler.get_latest_page_number "Gossiping" (some (text41, soupNine)) = .ok 42 :=
  latest_page_resolution.1 "Gossiping" text41 soupNine 41 (by decide)

/-- C10: when the pagination resolver yields 0, keyword search scans no
pages, returns the empty list without raising, and its result does not
depend on the listing oracle (no listing fetch can influence it). -/
theorem search_no_pages (board keyword : String) (N : Nat) (env : CrawlEnv)
    (h : PTTCrawler.get_latest_page_number board env.indexDoc = .ok 0) :
    PTTCrawler.search_articles board env keyword N = .ok [] ∧
    scanPages 0 N = [] ∧
    ∀ d, PTTCrawler.search_articles board { env with listingDoc := d } keyword N = .ok [] := by
  have hscan : scanPages 0 N = [] := by
    have h0 : ((0 : Int) + 1 - max 1 (0 - (N : Int) + 1)).toNat = 0 := by omega
    simp only [scanPages, h0]
    rfl
  obtain ⟨idx, listing, article⟩ := env
  refine ⟨?_, hscan, ?_⟩
  · unfold PTTCrawler.search_articles
    rw [h]
    simp [hscan]
  · intro d
    unfold PTTCrawler.search_articles
    rw [show PTTCrawler.get_latest_page_number board
          ({ indexDoc := idx, listingDoc := listing, articleDoc := article :
              CrawlEnv }.indexDoc) = .ok 0 from h]
    simp [hscan]

/-- Witness for `search_no_pages` at the failed index fetch. -/
theorem search_no_pages_witness :
    PTTCrawler.search_articles "Test" deadEnv "kw" 5 = .ok [] :=
  (search_no_pages "Test" "kw" 5 deadEnv (by rfl)).1

/-- C1 (the spec's orchestrator scenario, evaluated on both
implementations): a single page yielding 2 summaries with exactly one
failing detail fetch makes `ppt.py`'s `crawl_board_pages` emit exactly 1
record, as the claim states; but `ptt_crawler.py`'s `crawl_pages_range`
emits 0 records, because the merged dict carries the `push_preview` key,
which is not an `Article.__init__` parameter, so every successfully fetched
article dies with a `TypeError` that the per-article handler absorbs. -/
theorem orchestrator_scenario :
    (crawl_board_pages "Test" scenarioEnv 3 3).length = 1 ∧
    PTTCrawler.crawl_pages_range "Test" scenarioEnv 3 3 true = [] ∧
    articleCtorOk = false ∧
    ("push_preview" ∈ basicInfoKeys ∧ "push_preview" ∉ articleInitKeys) ∧
    (PTTCrawler.extract_articles_from_page_fetched "Test" scenarioEnv 3).length = 2 ∧
    (PTTCrawler.parse_article_content_fetched scenarioEnv
      "https://www.ptt.cc/bbs/Test/M.1.A.html").isSome = true ∧
    PTTCrawler.parse_article_content_fetched scenarioEnv
      "https://www.ptt.cc/bbs/Test/M.2.A.html" = none := by
  refine ⟨by decide, by decide, by decide, ⟨by decide, by decide⟩, by decide, by decide, by decide⟩

/-- C6 counterexample: a comment whose content text is `"::mid"` (all four
subfields present) yields a Comment whose content `":mid"` still begins
with the separator — only a single leading `:` is stripped. -/
theorem comment_separator_counterexample :
    (parse_article_content "http://a" doubleColonDoc).map
      (fun d => d.messages.map PushMsg.push_content) = some [":mid"] ∧
    pyStartsWith ":mid" ":" = true := by
  refine ⟨by decide, by decide⟩

/-- C6 as amended: the content cleanup strips exactly one leading separator
(plus surrounding whitespace), so the stored content has no leading `:`
whenever the text after that removal does not itself begin with `:`. -/
theorem comment_separator_stripped (s : String)
    (h : pyStartsWith (pyStrip ⟨s.toList.drop 1⟩) ":" = false) :
    pyStartsWith (cleanPushContent s) ":" = false := by
  unfold cleanPushContent
  by_cases hs : pyStartsWith s ":" = true
  · simp only [hs, if_true]
    exact h
  · simp only [Bool.not_eq_true] at hs
    simp only [hs, Bool.false_eq_true, if_false]

/-- Witness for `comment_separator_stripped`. -/
theorem comment_separator_stripped_witness :
    pyStartsWith (cleanPushContent ": hello") ":" = false :=
  comment_separator_stripped ": hello" (by rfl)

/-- C7 counterexample: an article with `main-content` present and only two
metadata rows — both rows present and readable (`metaVal` succeeds on
each) — parses with all three metadata fields empty: the fields of rows
that are present are not filled when fewer than three rows exist. -/
theorem metadata_rows_counterexample :
    (parse_article_content "http://a" twoMetaDoc).map
      (fun d => (d.author, d.article_title, d.date)) = some ("", "", "") ∧
    (twoMetaDoc.findFirst (idIs "main-content")).map
      (fun mc => (mc.findAll (tagClassIs "div" "article-metaline")).map metaVal) =
      some [some "alice", some "a title"] := by
  refine ⟨by decide, by decide⟩

/-- C7 as amended: when the main content container is present, detail
extraction always succeeds, and when fewer than three metadata rows are
present all three metadata fields are left as the empty string (the code
fills the fields only when at least three rows exist). -/
theorem metadata_rows_default (url : String) (doc mc : HNode)
    (h : doc.findFirst (idIs "main-content") = some mc) :
    ∃ d, parse_article_content url doc = some d ∧
      ((mc.findAll (tagClassIs "div" "article-metaline")).length < 3 →
        d.author = "" ∧ d.article_title = "" ∧ d.date = "") := by
  have hmf : ∀ ms : List HNode, ms.length < 3 → metaFields ms = ("", "", "") := by
    intro ms hlen
    match ms with
    | [] => rfl
    | [_] => rfl
    | [_, _] => rfl
    | a :: b :: c :: t => simp only [List.length_cons] at hlen; omega
  unfold parse_article_content parseCore
  rw [h]
  refine ⟨_, rfl, ?_⟩
  intro hlen
  have hf := hmf _ hlen
  simp [hf]

/-- Witness for `metadata_rows_default` at the two-row document. -/
theorem metadata_rows_default_witness :
    ∃ d, parse_article_content "http://a" twoMetaDoc = some d ∧
      ((twoMetaMain.findAll (tagClassIs "div" "article-metaline")).length < 3 →
        d.author = "" ∧ d.article_title = "" ∧ d.date = "") :=
  metadata_rows_default "http://a" twoMetaDoc twoMetaMain (by decide)

/-- The `ppt.py` listing loop unrolled: folding the append-if-well-formed
body is the filter-map of the entry guard over the entries, in order. -/
theorem extract_loop_py (ds : List HNode) (acc : List PySummary) :
    ds.foldl (fun acc div =>
      match summaryOfREnt div with
      | some s => acc ++ [s]
      | none => acc) acc
    = acc ++ ds.filterMap summaryOfREnt := by
  induction ds generalizing acc with
  | nil => simp
  | cons d ds ih =>
    rw [List.foldl_cons, List.filterMap_cons]
    cases hs : summaryOfREnt d with
    | none => simp [hs, ih]
    | some s => simp [hs, ih]

/-- The `ptt_crawler.py` listing loop unrolled, same shape. -/
theorem extract_loop_pc (board : String) (ds : List HNode) (acc : List PCSummary) :
    ds.foldl (fun acc div =>
      match summaryOfREntPC board div with
      | some s => acc ++ [s]
      | none => acc) acc
    = acc ++ ds.filterMap (summaryOfREntPC board) := by
  induction ds generalizing acc with
  | nil => simp
  | cons d ds ih =>
    rw [List.foldl_cons, List.filterMap_cons]
    cases hs : summaryOfREntPC board d with
    | none => simp [hs, ih]
    | some s => simp [hs, ih]

/-- The entry guard keeps an entry exactly when it is well formed. -/
theorem isSome_summaryOfREnt (d : HNode) :
    (summaryOfREnt d).isSome = wellFormedREnt d := by
  unfold summaryOfREnt wellFormedREnt
  cases d.findFirst (tagIs "a") with
  | none => rfl
  | some link =>
    dsimp only
    cases link.getAttr "href" with
    | none => simp
    | some href => by_cases hh : href = "" <;> simp [hh]

/-- Same for the `ptt_crawler.py` guard. -/
theorem isSome_summaryOfREntPC (board : String) (d : HNode) :
    (summaryOfREntPC board d).isSome = wellFormedREnt d := by
  unfold summaryOfREntPC wellFormedREnt
  cases d.findFirst (tagIs "a") with
  | none => rfl
  | some link =>
    dsimp only
    cases link.getAttr "href" with
    | none => simp
    | some href => by_cases hh : href = "" <;> simp [hh]

/-- A filter-map has as many elements as the filter of its success
predicate. -/
theorem length_filterMap_count {α β : Type} (f : α → Option β) (p : α → Bool)
    (hfp : ∀ a, (f a).isSome = p a) :
    ∀ l : List α, (l.filterMap f).length = (l.filter p).length := by
  intro l
  induction l with
  | nil => rfl
  | cons a l ih =>
    rw [List.filterMap_cons, List.filter_cons]
    cases hfa : f a with
    | none =>
      have hp : p a = false := by rw [← hfp a, hfa]; rfl
      simp [hp, ih]
    | some b =>
      have hp : p a = true := by rw [← hfp a, hfa]; rfl
      simp [hp, ih]

/-- C2: on any listing document, both listing extractors return, in
document order, exactly the summaries of the well-formed `r-ent` entries
(those with a link element carrying a non-empty `href`): the result is the
in-order filter-map of the entry guard, and its length is the number K of
well-formed entries — malformed entries never fail the page, they are
skipped. -/
theorem listing_extraction (board : String) (doc : HNode) :
    extract_article_links doc =
      (doc.findAll (tagClassIs "div" "r-ent")).filterMap summaryOfREnt ∧
    (extract_article_links doc).length =
      ((doc.findAll (tagClassIs "div" "r-ent")).filter wellFormedREnt).length ∧
    PTTCrawler.extract_articles_from_page board doc =
      (doc.findAll (tagClassIs "div" "r-ent")).filterMap (summaryOfREntPC board) ∧
    (PTTCrawler.extract_articles_from_page board doc).length =
      ((doc.findAll (tagClassIs "div" "r-ent")).filter wellFormedREnt).length := by
  have h1 : extract_article_links doc =
      (doc.findAll (tagClassIs "div" "r-ent")).filterMap summaryOfREnt := by
    unfold extract_article_links
    rw [extract_loop_py]
    simp
  have h2 : PTTCrawler.extract_articles_from_page board doc =
      (doc.findAll (tagClassIs "div" "r-ent")).filterMap (summaryOfREntPC board) := by
    unfold PTTCrawler.extract_articles_from_page
    rw [extract_loop_pc]
    simp
  refine ⟨h1, ?_, h2, ?_⟩
  · rw [h1]
    exact length_filterMap_count _ _ isSome_summaryOfREnt _
  · rw [h2]
    exact length_filterMap_count _ _ (isSome_summaryOfREntPC board) _

/-- One push-loop step preserves the tally invariants: each counter equals
the count of its tag among the accumulated messages. -/
theorem processPush_tally (sent : String) (acc : PushAcc) (n : HNode)
    (h1 : acc.push_count = (acc.messages.filter (fun m => m.push_tag = "推")).length)
    (h2 : acc.boo_count = (acc.messages.filter (fun m => m.push_tag = "噓")).length)
    (h3 : acc.neutral_count =
      (acc.messages.filter (fun m => m.push_tag ≠ "推" ∧ m.push_tag ≠ "噓")).length) :
    (processPush sent acc n).push_count =
      ((processPush sent acc n).messages.filter (fun m => m.push_tag = "推")).length ∧
    (processPush sent acc n).boo_count =
      ((processPush sent acc n).messages.filter (fun m => m.push_tag = "噓")).length ∧
    (processPush sent acc n).neutral_count =
      ((processPush sent acc n).messages.filter
        (fun m => m.push_tag ≠ "推" ∧ m.push_tag ≠ "噓")).length := by
  unfold processPush
  cases hT : n.findFirst (tagClassIs "span" "push-tag") with
  | none => exact ⟨h1, h2, h3⟩
  | some tagE =>
    cases hU : n.findFirst (tagClassIs "span" "push-userid") with
    | none => exact ⟨h1, h2, h3⟩
    | some uidE =>
      cases hC : n.findFirst (tagClassIs "span" "push-content") with
      | none => exact ⟨h1, h2, h3⟩
      | some contE =>
        cases hD : n.findFirst (tagClassIs "span" "push-ipdatetime") with
        | none => exact ⟨h1, h2, h3⟩
        | some dtE =>
          dsimp only
          by_cases ht : tagE.getTextStrip = "推"
          · simp [ht, List.filter_append, h1, h2, h3]
          · by_cases hb : tagE.getTextStrip = "噓"
            · simp [ht, hb, List.filter_append, h1, h2, h3]
            · simp [ht, hb, List.filter_append, h1, h2, h3]

/-- The push loop establishes the tally invariants from any state that
satisfies them. -/
theorem pushLoop_tally (sent : String) (ps : List HNode) : ∀ acc : PushAcc,
    acc.push_count = (acc.messages.filter (fun m => m.push_tag = "推")).length →
    acc.boo_count = (acc.messages.filter (fun m => m.push_tag = "噓")).length →
    acc.neutral_count =
      (acc.messages.filter (fun m => m.push_tag ≠ "推" ∧ m.push_tag ≠ "噓")).length →
    (ps.foldl (processPush sent) acc).push_count =
      ((ps.foldl (processPush sent) acc).messages.filter
        (fun m => m.push_tag = "推")).length ∧
    (ps.foldl (processPush sent) acc).boo_count =
      ((ps.foldl (processPush sent) acc).messages.filter
        (fun m => m.push_tag = "噓")).length ∧
    (ps.foldl (processPush sent) acc).neutral_count =
      ((ps.foldl (processPush sent) acc).messages.filter
        (fun m => m.push_tag ≠ "推" ∧ m.push_tag ≠ "噓")).length := by
  induction ps with
  | nil => intro acc h1 h2 h3; exact ⟨h1, h2, h3⟩
  | cons p ps ih =>
    intro acc h1 h2 h3
    rw [List.foldl_cons]
    obtain ⟨g1, g2, g3⟩ := processPush_tally sent acc p h1 h2 h3
    exact ih _ g1 g2 g3

/-- Every message falls in exactly one of the three tag classes, so the
three counts add up to the number of messages. -/
theorem tally_partitions (msgs : List PushMsg) :
    (msgs.filter (fun m => m.push_tag = "推")).length +
    (msgs.filter (fun m => m.push_tag = "噓")).length +
    (msgs.filter (fun m => m.push_tag ≠ "推" ∧ m.push_tag ≠ "噓")).length = msgs.length := by
  induction msgs with
  | nil => rfl
  | cons m l ih =>
    simp only [List.filter_cons]
    split <;> split <;> split <;> simp_all <;> omega

/-- C5: in every `ArticleDetail` produced by detail extraction, the stats
are exactly the tally of the retained comment sequence: `count` (the score)
is `push − boo`, `all` is `push + boo + neutral` and equals the number of
comments, and each counter counts exactly the comments whose tag matches
its glyph (`推` agree, `噓` disagree, anything else neutral) — the stats
cannot drift from the comment sequence. -/
theorem comment_stats_inv (url : String) (doc : HNode) (d : PyParsed)
    (h : parse_article_content url doc = some d) :
    d.message_count.count = (d.message_count.push : Int) - (d.message_count.boo : Int) ∧
    d.message_count.all = d.message_count.push + d.message_count.boo + d.message_count.neutral ∧
    d.message_count.all = d.messages.length ∧
    d.message_count.push = (d.messages.filter (fun m => m.push_tag = "推")).length ∧
    d.message_count.boo = (d.messages.filter (fun m => m.push_tag = "噓")).length ∧
    d.message_count.neutral =
      (d.messages.filter (fun m => m.push_tag ≠ "推" ∧ m.push_tag ≠ "噓")).length := by
  unfold parse_article_content at h
  rw [Option.map_eq_some'] at h
  obtain ⟨c, hc, hd⟩ := h
  unfold parseCore at hc
  cases hmc : doc.findFirst (idIs "main-content") with
  | none => rw [hmc] at hc; exact absurd hc (by simp)
  | some mc =>
    rw [hmc] at hc
    dsimp only at hc
    have hcc := Option.some.inj hc
    subst hcc
    subst hd
    obtain ⟨g1, g2, g3⟩ :=
      pushLoop_tally "None"
        ((mc.removeAll (fun n =>
            tagClassIs "div" "article-metaline" n ||
              tagClassIs "div" "article-metaline-right" n)).findAll (tagClassIs "div" "push"))
        ⟨[], 0, 0, 0⟩ rfl rfl rfl
    refine ⟨rfl, rfl, ?_, g1, g2, g3⟩
    rw [show (List.foldl (processPush "None")
        { messages := [], push_count := 0, boo_count := 0, neutral_count := 0 }
        ((mc.removeAll (fun n =>
            tagClassIs "div" "article-metaline" n ||
              tagClassIs "div" "article-metaline-right" n)).findAll
          (tagClassIs "div" "push"))).push_count = _ from g1,
      show (List.foldl (processPush "None")
        { messages := [], push_count := 0, boo_count := 0, neutral_count := 0 }
        ((mc.removeAll (fun n =>
            tagClassIs "div" "article-metaline" n ||
              tagClassIs "div" "article-metaline-right" n)).findAll
          (tagClassIs "div" "push"))).boo_count = _ from g2,
      show (List.foldl (processPush "None")
        { messages := [], push_count := 0, boo_count := 0, neutral_count := 0 }
        ((mc.removeAll (fun n =>
            tagClassIs "div" "article-metaline" n ||
              tagClassIs "div" "article-metaline-right" n)).findAll
          (tagClassIs "div" "push"))).neutral_count = _ from g3]
    exact tally_partitions _

/-- Witness for `comment_stats_inv` at a concrete article with one agree,
one disagree and one neutral comment. -/
theorem comment_stats_inv_witness :
    tallyParsed.message_count.count =
      (tallyParsed.message_count.push : Int) - (tallyParsed.message_count.boo : Int) ∧
    tallyParsed.message_count.all =
      tallyParsed.message_count.push + tallyParsed.message_count.boo +
        tallyParsed.message_count.neutral ∧
    tallyParsed.message_count.all = tallyParsed.messages.length ∧
    tallyParsed.message_count.push =
      (tallyParsed.messages.filter (fun m => m.push_tag = "推")).length ∧
    tallyParsed.message_count.boo =
      (tallyParsed.messages.filter (fun m => m.push_tag = "噓")).length ∧
    tallyParsed.message_count.neutral =
      (tallyParsed.messages.filter
        (fun m => m.push_tag ≠ "推" ∧ m.push_tag ≠ "噓")).length :=
  comment_stats_inv "http://x" tallyDoc tallyParsed (by decide)

/-- The keyword filter loop unrolled: appending each matching summary is
the filter of the match predicate. -/
theorem filter_loop {α : Type} (p : α → Bool) :
    ∀ (l : List α) (acc : List α),
      l.foldl (fun acc a => if p a then acc ++ [a] else acc) acc = acc ++ l.filter p := by
  intro l
  induction l with
  | nil => simp
  | cons a l ih =>
    intro acc
    rw [List.foldl_cons, List.filter_cons]
    cases hp : p a with
    | false => simp [hp, ih]
    | true => simp [hp, ih]

/-- The page scan of `search_articles` unrolled: the traversal emits, page
by page in order, the summaries whose lowercased title contains the
lowercased keyword. -/
theorem search_scan_loop (board keyword : String) (env : CrawlEnv) :
    ∀ (pages : List Nat) (found : List PCSummary),
      pages.foldl (fun found page =>
        (PTTCrawler.extract_articles_from_page_fetched board env page).foldl
          (fun acc article =>
            if pyInStr (pyLower keyword) (pyLower article.title) then acc ++ [article]
            else acc) found) found
      = found ++ pages.flatMap (fun p =>
          (PTTCrawler.extract_articles_from_page_fetched board env p).filter
            (fun a => pyInStr (pyLower keyword) (pyLower a.title))) := by
  intro pages
  induction pages with
  | nil => simp
  | cons p ps ih =>
    intro found
    rw [List.foldl_cons, List.flatMap_cons,
      filter_loop (fun (a : PCSummary) => pyInStr (pyLower keyword) (pyLower a.title)), ih]
    rw [List.append_assoc]

/-- C9: when the pagination resolver yields latest page `L`, keyword search
scans exactly the pages `max 1 (L − N + 1) .. L`, in increasing order,
returns exactly the summaries whose title contains the keyword
case-insensitively, in traversal order, and never consults the
article-detail oracle (no detail fetch). -/
theorem keyword_search (board keyword : String) (env : CrawlEnv) (N : Nat) (L : Int)
    (h : PTTCrawler.get_latest_page_number board env.indexDoc = .ok L) :
    PTTCrawler.search_articles board env keyword N =
      .ok ((scanPages L N).flatMap (fun p =>
        (PTTCrawler.extract_articles_from_page_fetched board env p).filter
          (fun a => pyInStr (pyLower keyword) (pyLower a.title)))) ∧
    (∀ p : Nat, p ∈ scanPages L N ↔ max 1 (L - N + 1) ≤ (p : Int) ∧ (p : Int) ≤ L) ∧
    List.Pairwise (· < ·) (scanPages L N) ∧
    (∀ d, PTTCrawler.search_articles board { env with articleDoc := d } keyword N =
          PTTCrawler.search_articles board env keyword N) := by
  obtain ⟨idx, listing, article⟩ := env
  refine ⟨?_, ?_, ?_, fun d => rfl⟩
  · unfold PTTCrawler.search_articles
    rw [h]
    dsimp only
    rw [search_scan_loop]
    simp
  · intro p
    unfold scanPages
    rw [List.mem_range'_1]
    omega
  · unfold scanPages
    exact List.pairwise_lt_range' _ _

/-- A successful digit match decomposes the input and contains no dots. -/
theorem matchNDigits_spec :
    ∀ (k : Nat) (l d r : List Char), matchNDigits k l = some (d, r) →
      l = d ++ r ∧ d.count '.' = 0 := by
  intro k
  induction k with
  | zero =>
    intro l d r h
    simp only [matchNDigits, Option.some.injEq, Prod.mk.injEq] at h
    obtain ⟨h1, h2⟩ := h
    subst h1
    subst h2
    simp
  | succ k ih =>
    intro l d r h
    cases l with
    | nil => simp [matchNDigits] at h
    | cons c l' =>
      simp only [matchNDigits] at h
      by_cases hc : c.isDigit
      · rw [if_pos hc] at h
        rw [Option.map_eq_some'] at h
        obtain ⟨⟨d', r'⟩, hm, heq⟩ := h
        simp only [Prod.mk.injEq] at heq
        obtain ⟨hd, hr⟩ := heq
        subst hd
        subst hr
        obtain ⟨hl, hcnt⟩ := ih l' d' r' hm
        subst hl
        have hcd : c ≠ '.' := by
          intro he
          rw [he] at hc
          simp [Char.isDigit] at hc
        refine ⟨by simp, ?_⟩
        rw [List.count_cons]
        simp [hcnt, hcd]
      · rw [if_neg hc] at h
        exact absurd h (by simp)

/-- A successful dot match consumes exactly one leading dot. -/
theorem matchDot_spec (l r : List Char) (h : matchDot l = some r) : l = '.' :: r := by
  unfold matchDot at h
  split at h
  · cases h
    rfl
  · exact absurd h (by simp)

/-- A successful alternative search has a successful alternative. -/
theorem firstSome_spec {α β : Type} (f : α → Option β) :
    ∀ (as : List α) (b : β), firstSome f as = some b → ∃ a, f a = some b := by
  intro as
  induction as with
  | nil => intro b h; simp [firstSome] at h
  | cons a as ih =>
    intro b h
    unfold firstSome at h
    cases hfa : f a with
    | some b' =>
      rw [hfa] at h
      exact ⟨a, by rw [hfa, ← h]⟩
    | none =>
      rw [hfa] at h
      exact ih b h

/-- A dotted-quad match decomposes its input and its matched text holds
exactly three dots. -/
theorem matchQuadFrom_spec (l m r : List Char) (h : matchQuadFrom l = some (m, r)) :
    l = m ++ r ∧ m.count '.' = 3 := by
  unfold matchQuadFrom at h
  obtain ⟨k1, h1⟩ := firstSome_spec _ _ _ h
  rw [Option.bind_eq_some] at h1
  obtain ⟨⟨d1, r1⟩, hd1, h1⟩ := h1
  rw [Option.bind_eq_some] at h1
  obtain ⟨t1, hdot1, h1⟩ := h1
  obtain ⟨k2, h2⟩ := firstSome_spec _ _ _ h1
  rw [Option.bind_eq_some] at h2
  obtain ⟨⟨d2, r2⟩, hd2, h2⟩ := h2
  rw [Option.bind_eq_some] at h2
  obtain ⟨t2, hdot2, h2⟩ := h2
  obtain ⟨k3, h3⟩ := firstSome_spec _ _ _ h2
  rw [Option.bind_eq_some] at h3
  obtain ⟨⟨d3, r3⟩, hd3, h3⟩ := h3
  rw [Option.bind_eq_some] at h3
  obtain ⟨t3, hdot3, h3⟩ := h3
  obtain ⟨k4, h4⟩ := firstSome_spec _ _ _ h3
  rw [Option.bind_eq_some] at h4
  obtain ⟨⟨d4, r4⟩, hd4, h4⟩ := h4
  by_cases hq : quadEndOk r4
  · rw [if_pos hq] at h4
    simp only [Option.some.injEq, Prod.mk.injEq] at h4
    obtain ⟨hm, hr⟩ := h4
    subst hm
    subst hr
    obtain ⟨e1, c1⟩ := matchNDigits_spec _ _ _ _ hd1
    have e1' := matchDot_spec _ _ hdot1
    obtain ⟨e2, c2⟩ := matchNDigits_spec _ _ _ _ hd2
    have e2' := matchDot_spec _ _ hdot2
    obtain ⟨e3, c3⟩ := matchNDigits_spec _ _ _ _ hd3
    have e3' := matchDot_spec _ _ hdot3
    obtain ⟨e4, c4⟩ := matchNDigits_spec _ _ _ _ hd4
    dsimp only at e1' e2' e3'
    subst e1
    subst e1'
    subst e2
    subst e2'
    subst e3
    subst e3'
    subst e4
    constructor
    · simp
    · simp [List.count_append, List.count_cons, c1, c2, c3, c4]
  · rw [if_neg hq] at h4
    exact absurd h4 (by simp)

/-- The `re.search` scan decomposes its input around the matched text,
which holds exactly three dots. -/
theorem searchQuadAux_spec :
    ∀ (l : List Char) (prevOk : Bool) (p m r : List Char),
      searchQuadAux prevOk l = some (p, m, r) → l = p ++ m ++ r ∧ m.count '.' = 3 := by
  intro l
  induction l with
  | nil => intro prevOk p m r h; simp [searchQuadAux] at h
  | cons c rest ih =>
    intro prevOk p m r h
    unfold searchQuadAux at h
    cases hmq : (if prevOk then matchQuadFrom (c :: rest) else none) with
    | some t =>
      rw [hmq] at h
      dsimp only at h
      simp only [Option.some.injEq, Prod.mk.injEq] at h
      obtain ⟨hp, hm, hr⟩ := h
      subst hp
      subst hm
      subst hr
      by_cases hp : prevOk
      · rw [if_pos hp] at hmq
        obtain ⟨hd, hc⟩ := matchQuadFrom_spec _ _ _ hmq
        exact ⟨by simpa using hd, hc⟩
      · rw [if_neg hp] at hmq
        exact absurd hmq (by simp)
    | none =>
      rw [hmq] at h
      dsimp only at h
      rw [Option.map_eq_some'] at h
      obtain ⟨⟨p', m', r'⟩, hrec, heq⟩ := h
      simp only [Prod.mk.injEq] at heq
      obtain ⟨hp, hm, hr⟩ := heq
      subst hp
      subst hm
      subst hr
      obtain ⟨hd, hc⟩ := ih _ _ _ _ hrec
      exact ⟨by simp [hd, List.append_assoc], hc⟩

/-- `searchQuad` decomposes its input around the matched text. -/
theorem searchQuad_spec (l p m r : List Char) (h : searchQuad l = some (p, m, r)) :
    l = p ++ m ++ r ∧ m.count '.' = 3 :=
  searchQuadAux_spec l true p m r h

/-- A string with no dot has no dotted-quad match. -/
theorem searchQuad_of_no_dot (l : List Char) (h : l.count '.' = 0) :
    searchQuad l = none := by
  cases hq : searchQuad l with
  | none => rfl
  | some t =>
    obtain ⟨p, m, r⟩ := t
    obtain ⟨hd, hc⟩ := searchQuad_spec _ _ _ _ hq
    rw [hd] at h
    simp [List.count_append, hc] at h

/-- Unfolding equation: the delete branch of `replaceAllFuel`. -/
theorem replaceAllFuel_cons_pos (pat : List Char) (fuel : Nat) (c : Char) (rest : List Char)
    (h : (decide (pat ≠ []) && pat.isPrefixOf (c :: rest)) = true) :
    replaceAllFuel pat (fuel + 1) (c :: rest) =
      replaceAllFuel pat fuel ((c :: rest).drop pat.length) := by
  conv_lhs => unfold replaceAllFuel
  rw [if_pos h]

/-- Unfolding equation: the keep branch of `replaceAllFuel`. -/
theorem replaceAllFuel_cons_neg (pat : List Char) (fuel : Nat) (c : Char) (rest : List Char)
    (h : ¬((decide (pat ≠ []) && pat.isPrefixOf (c :: rest)) = true)) :
    replaceAllFuel pat (fuel + 1) (c :: rest) = c :: replaceAllFuel pat fuel rest := by
  conv_lhs => unfold replaceAllFuel
  rw [if_neg h]

/-- Deleting occurrences never increases a character's count. -/
theorem count_replaceAllFuel_le (pat : List Char) (a : Char) :
    ∀ (fuel : Nat) (l : List Char), (replaceAllFuel pat fuel l).count a ≤ l.count a := by
  intro fuel
  induction fuel with
  | zero =>
    intro l
    cases l with
    | nil => simp [replaceAllFuel]
    | cons c rest => simp [replaceAllFuel]
  | succ fuel ih =>
    intro l
    cases l with
    | nil => simp [replaceAllFuel]
    | cons c rest =>
      by_cases hcond : (decide (pat ≠ []) && pat.isPrefixOf (c :: rest)) = true
      · rw [replaceAllFuel_cons_pos pat fuel c rest hcond]
        exact le_trans (ih _) (List.Sublist.count_le (List.drop_sublist _ _) a)
      · rw [replaceAllFuel_cons_neg pat fuel c rest hcond]
        rw [List.count_cons, List.count_cons]
        have := ih rest
        omega

/-- A list is a prefix of itself followed by anything. -/
theorem isPrefixOf_append_self : ∀ (l r : List Char), l.isPrefixOf (l ++ r) = true := by
  intro l
  induction l with
  | nil => intro r; cases r <;> rfl
  | cons a l ih => intro r; simp [List.isPrefixOf, ih]

/-- A true `isPrefixOf` yields an append decomposition. -/
theorem isPrefixOf_exists :
    ∀ (p l : List Char), p.isPrefixOf l = true → ∃ t, l = p ++ t := by
  intro p
  induction p with
  | nil => intro l _; exact ⟨l, rfl⟩
  | cons a p ih =>
    intro l h
    cases l with
    | nil => simp [List.isPrefixOf] at h
    | cons b l' =>
      simp only [List.isPrefixOf, Bool.and_eq_true, beq_iff_eq] at h
      obtain ⟨hab, hp⟩ := h
      obtain ⟨t, ht⟩ := ih l' hp
      exact ⟨t, by rw [hab, ht]; rfl⟩

/-- Deleting every occurrence of a pattern that occurs in the input and
holds three dots removes at least three dots (with enough fuel). -/
theorem count_replaceAllFuel_removes (pat : List Char) (hne : pat ≠ [])
    (hc3 : pat.count '.' = 3) :
    ∀ (p : List Char) (fuel : Nat) (r : List Char),
      (p ++ pat ++ r).length ≤ fuel →
      (replaceAllFuel pat fuel (p ++ pat ++ r)).count '.' + 3 ≤ (p ++ pat ++ r).count '.' := by
  intro p
  induction p with
  | nil =>
    intro fuel r hfuel
    simp only [List.nil_append] at hfuel ⊢
    obtain ⟨pc, pt, hpat⟩ := List.exists_cons_of_ne_nil hne
    cases fuel with
    | zero =>
      rw [hpat] at hfuel
      simp at hfuel
    | succ fuel =>
      have hform : pat ++ r = pc :: (pt ++ r) := by rw [hpat]; rfl
      have hcond : (decide (pat ≠ []) && pat.isPrefixOf (pc :: (pt ++ r))) = true := by
        rw [← hform]
        simp [hne, isPrefixOf_append_self]
      have hstep : replaceAllFuel pat (fuel + 1) (pat ++ r) = replaceAllFuel pat fuel r := by
        rw [hform, replaceAllFuel_cons_pos pat fuel pc (pt ++ r) hcond, ← hform,
          List.drop_left]
      rw [hstep, List.count_append, hc3]
      have hle := count_replaceAllFuel_le pat '.' fuel r
      omega
  | cons a p ih =>
    intro fuel r hfuel
    cases fuel with
    | zero =>
      simp at hfuel
    | succ fuel =>
      have hform : a :: p ++ pat ++ r = a :: (p ++ pat ++ r) := by
        simp [List.cons_append, List.append_assoc]
      rw [hform]
      by_cases hcond : (decide (pat ≠ []) && pat.isPrefixOf (a :: (p ++ pat ++ r))) = true
      · rw [replaceAllFuel_cons_pos pat fuel a (p ++ pat ++ r) hcond]
        have hpre : pat.isPrefixOf (a :: (p ++ pat ++ r)) = true := by
          simp only [Bool.and_eq_true] at hcond
          exact hcond.2
        obtain ⟨t, ht⟩ := isPrefixOf_exists _ _ hpre
        rw [ht, List.drop_left]
        have hle := count_replaceAllFuel_le pat '.' fuel t
        rw [List.count_append, hc3]
        omega
      · rw [replaceAllFuel_cons_neg pat fuel a (p ++ pat ++ r) hcond]
        have hih := ih fuel r (by
          simp only [List.cons_append, List.length_cons] at hfuel
          simp only [List.append_assoc] at hfuel ⊢
          omega)
        rw [List.count_cons, List.count_cons]
        omega

/-- Stripping surrounding whitespace never increases a character's count. -/
theorem count_pyStripChars_le (l : List Char) (a : Char) :
    (pyStripChars l).count a ≤ l.count a := by
  unfold pyStripChars
  calc ((((l.dropWhile isPySpace).reverse.dropWhile isPySpace).reverse).count a)
      = (((l.dropWhile isPySpace).reverse.dropWhile isPySpace)).count a := by
        rw [List.count_reverse]
    _ ≤ ((l.dropWhile isPySpace).reverse).count a :=
        List.Sublist.count_le (List.dropWhile_sublist _) a
    _ = (l.dropWhile isPySpace).count a := by rw [List.count_reverse]
    _ ≤ l.count a := List.Sublist.count_le (List.dropWhile_sublist _) a

/-- C8 counterexample: on the input `"1.2.3.4 5.6.7.8"` (two dotted quads)
the extraction removes the first match, but searching the pattern on the
cleaned string matches again — the operation is not idempotent as claimed. -/
theorem ip_extraction_counterexample :
    ipDatetimeSplit "None" "1.2.3.4 5.6.7.8" = ("1.2.3.4", "5.6.7.8") ∧
    (searchQuad ((ipDatetimeSplit "None" "1.2.3.4 5.6.7.8").2.toList)).isSome = true := by
  refine ⟨by decide, by decide⟩

/-- C8 as amended: for every input string containing at most three dot
characters — in particular any comment timestamp holding at most a single
dotted-quad IP — the cleaned timestamp produced by the extraction admits no
further dotted-quad match: the second search yields no match. -/
theorem ip_extraction_idempotent (sentinel s : String)
    (h : s.toList.count '.' ≤ 3) :
    searchQuad ((ipDatetimeSplit sentinel s).2.toList) = none := by
  unfold ipDatetimeSplit
  cases hq : searchQuad s.toList with
  | none =>
    dsimp only
    exact hq
  | some t =>
    obtain ⟨p, m, r⟩ := t
    dsimp only
    obtain ⟨hdec, hcnt⟩ := searchQuad_spec _ _ _ _ hq
    have hne : m ≠ [] := by
      intro he
      rw [he] at hcnt
      simp at hcnt
    apply searchQuad_of_no_dot
    have hrep : (pyReplaceDel m s.toList).count '.' + 3 ≤ (s.toList).count '.' := by
      unfold pyReplaceDel
      rw [show s.toList = p ++ m ++ r from hdec]
      exact count_replaceAllFuel_removes m hne hcnt p _ r (le_refl _)
    have hstr := count_pyStripChars_le (pyReplaceDel m s.toList) '.'
    have : ((⟨pyStripChars (pyReplaceDel m s.toList)⟩ : String)).toList
        = pyStripChars (pyReplaceDel m s.toList) := rfl
    rw [this]
    omega

/-- Witness for `ip_extraction_idempotent` at a realistic single-IP
timestamp string. -/
theorem ip_extraction_idempotent_witness :
    searchQuad ((ipDatetimeSplit "None" "05/01 12:34 140.112.25.4").2.toList) = none :=
  ip_extraction_idempotent "None" "05/01 12:34 140.112.25.4" (by decide)

/-- Witness for `keyword_search` at a concrete environment whose index page
resolves to latest page 42. -/
theorem keyword_search_witness :
    PTTCrawler.search_articles "Gossiping" searchEnv "kw" 5 =
      .ok ((scanPages 42 5).flatMap (fun p =>
        (PTTCrawler.extract_articles_from_page_fetched "Gossiping" searchEnv p).filter
          (fun a => pyInStr (pyLower "kw") (pyLower a.title)))) :=
  (keyword_search "Gossiping" "kw" searchEnv 5 42 (by rfl)).1
